import Mathlib

/-!
Shallow embedding of the two converters of the diet-manager repository:
`yada/add_composite_food.py` (composite-food converter) and
`yada/convert_foods.py` (basic-food converter).

Modelling decisions, stated once here:
* JSON values are the inductive `JVal`; JSON numbers are modelled as
  integers (the claims' concrete inputs are all integral).  Python dicts
  are association lists with unique keys, in insertion order.
* Output files are modelled by their content, a `String`; an append to a
  file becomes string concatenation, and the write `try/except` of the
  source never fires in the model (appends always succeed).
* A Python exception that the modelled code does not catch is the
  `.error ()` value of `Except Unit`; `print` calls are dropped.
* `str.join`, `str.lower`, `str.split` and Python `str()` of a value are
  modelled by `joinSep`, `pyLower`, `splitOnChar` and `pyStr`.
-/

inductive JVal where
  | jnull : JVal
  | jbool : Bool → JVal
  | jnum : Int → JVal
  | jstr : String → JVal
  | jarr : List JVal → JVal
  | jobj : List (String × JVal) → JVal

/-- Python truthiness (`bool(x)`) on the modelled JSON values. -/
def pyTruthy : JVal → Bool
  | .jnull => false
  | .jbool b => b
  | .jnum n => n != 0
  | .jstr s => s != ""
  | .jarr xs => !xs.isEmpty
  | .jobj fs => !fs.isEmpty

/-- Python `dict.get(key, dflt)` on an association list (unique keys). -/
def lookupD (fs : List (String × JVal)) (key : String) (dflt : JVal) : JVal :=
  match fs with
  | [] => dflt
  | (k, v) :: rest => if k = key then v else lookupD rest key dflt

/-- Python `sep.join(strs)`. -/
def joinSep (sep : String) : List String → String
  | [] => ""
  | [x] => x
  | x :: xs => x ++ sep ++ joinSep sep xs

/-- Concatenation of a list of strings (used to state appended output). -/
def concatStrs : List String → String
  | [] => ""
  | x :: xs => x ++ concatStrs xs

/-- Decimal digit character for a digit value (values above nine do not occur). -/
def pyDigitChar (d : Nat) : Char :=
  if d = 0 then '0' else if d = 1 then '1' else if d = 2 then '2'
  else if d = 3 then '3' else if d = 4 then '4' else if d = 5 then '5'
  else if d = 6 then '6' else if d = 7 then '7' else if d = 8 then '8' else '9'

/-- Fuel-bounded decimal digits of a natural number, most significant first. -/
def natDigitsAux : Nat → Nat → List Char
  | 0, _ => []
  | fuel + 1, n => if n = 0 then [] else natDigitsAux fuel (n / 10) ++ [pyDigitChar (n % 10)]

/-- Python `str(n)` for a natural number. -/
def pyNatStr (n : Nat) : String :=
  if n = 0 then "0" else String.mk (natDigitsAux n n)

/-- Python `str(n)` for an integer. -/
def pyIntStr (n : Int) : String :=
  if n < 0 then "-" ++ pyNatStr n.natAbs else pyNatStr n.natAbs

mutual

/-- Python `repr` of a modelled JSON value (string escaping inside
containers is not modelled; no claim evaluates it on containers). -/
def pyRepr : JVal → String
  | .jnull => "None"
  | .jbool b => if b then "True" else "False"
  | .jnum n => pyIntStr n
  | .jstr s => "\x27" ++ s ++ "\x27"
  | .jarr xs => "[" ++ joinSep ", " (pyReprList xs) ++ "]"
  | .jobj fs => "\x7b" ++ joinSep ", " (pyReprFields fs) ++ "\x7d"

def pyReprList : List JVal → List String
  | [] => []
  | x :: xs => pyRepr x :: pyReprList xs

def pyReprFields : List (String × JVal) → List String
  | [] => []
  | (k, v) :: fs => ("\x27" ++ k ++ "\x27: " ++ pyRepr v) :: pyReprFields fs

end

/-- Python `str(v)`, as used by f-string interpolation. -/
def pyStr : JVal → String
  | .jstr s => s
  | v => pyRepr v

/-- Python `str.lower()` (ASCII; all claim inputs are ASCII). -/
def pyLower (s : String) : String := String.mk (s.data.map Char.toLower)

/-! Model of `json.loads` (Python standard library), restricted to what the
repository's inputs use: objects, arrays, strings with the simple escapes,
`true`/`false`/`null`, and integer numerals (see the number-modelling note
at the top of the file: fractional and exponent numerals are not modelled). -/

/-- Skip JSON whitespace. -/
def skipWs : List Char → List Char
  | [] => []
  | c :: cs => if c = ' ' ∨ c = '\n' ∨ c = '\t' ∨ c = '\r' then skipWs cs else c :: cs

/-- Body of a JSON string after the opening quote; returns content and rest. -/
def parseStringBody : Nat → List Char → Option (String × List Char)
  | 0, _ => none
  | _ + 1, [] => none
  | fuel + 1, c :: cs =>
    if c = '"' then some ("", cs)
    else if c = '\\' then
      match cs with
      | [] => none
      | e :: cs2 =>
        let ec : Option Char :=
          if e = '"' then some '"' else if e = '\\' then some '\\'
          else if e = '/' then some '/' else if e = 'n' then some '\n'
          else if e = 't' then some '\t' else if e = 'r' then some '\r'
          else none
        match ec with
        | none => none
        | some d =>
          match parseStringBody fuel cs2 with
          | none => none
          | some (s, rest) => some (String.mk (d :: s.data), rest)
    else
      match parseStringBody fuel cs with
      | none => none
      | some (s, rest) => some (String.mk (c :: s.data), rest)

def isDigitCh (c : Char) : Bool := '0' ≤ c && c ≤ '9'

/-- Longest digit run at the front, plus the remainder. -/
def takeDigits : List Char → List Char × List Char
  | [] => ([], [])
  | c :: cs =>
    if isDigitCh c then
      let r := takeDigits cs
      (c :: r.1, r.2)
    else ([], c :: cs)

def digitsToNat (l : List Char) : Nat :=
  l.foldl (fun a c => a * 10 + (c.toNat - 48)) 0

/-- Integer JSON numeral (fractional/exponent forms are outside the model). -/
def parseNumber (cs : List Char) : Option (JVal × List Char) :=
  let p := match cs with
    | '-' :: r => (true, r)
    | _ => (false, cs)
  match takeDigits p.2 with
  | ([], _) => none
  | (ds, rest) =>
    match rest with
    | '.' :: _ => none
    | 'e' :: _ => none
    | 'E' :: _ => none
    | _ =>
      let v : Int := Int.ofNat (digitsToNat ds)
      some (.jnum (if p.1 then -v else v), rest)

mutual

/-- One JSON value, fuel-bounded; returns the value and the unconsumed rest. -/
def parseVal : Nat → List Char → Option (JVal × List Char)
  | 0, _ => none
  | fuel + 1, cs =>
    match skipWs cs with
    | [] => none
    | c :: rest =>
      if c = 'n' then
        match rest with
        | 'u' :: 'l' :: 'l' :: r => some (.jnull, r)
        | _ => none
      else if c = 't' then
        match rest with
        | 'r' :: 'u' :: 'e' :: r => some (.jbool true, r)
        | _ => none
      else if c = 'f' then
        match rest with
        | 'a' :: 'l' :: 's' :: 'e' :: r => some (.jbool false, r)
        | _ => none
      else if c = '"' then
        match parseStringBody (rest.length + 1) rest with
        | none => none
        | some (s, r) => some (.jstr s, r)
      else if c = '[' then
        match skipWs rest with
        | ']' :: r2 => some (.jarr [], r2)
        | _ =>
          match parseItems fuel rest with
          | none => none
          | some (l, r) => some (.jarr l, r)
      else if c = '\x7b' then
        match skipWs rest with
        | '\x7d' :: r2 => some (.jobj [], r2)
        | _ =>
          match parseMembers fuel rest with
          | none => none
          | some (l, r) => some (.jobj l, r)
      else parseNumber (c :: rest)

/-- Comma-separated array items up to and including the closing bracket. -/
def parseItems : Nat → List Char → Option (List JVal × List Char)
  | 0, _ => none
  | fuel + 1, cs =>
    match parseVal fuel cs with
    | none => none
    | some (v, r1) =>
      match skipWs r1 with
      | ',' :: r2 =>
        match parseItems fuel r2 with
        | none => none
        | some (l, r) => some (v :: l, r)
      | ']' :: r2 => some ([v], r2)
      | _ => none

/-- Comma-separated object members up to and including the closing brace. -/
def parseMembers : Nat → List Char → Option (List (String × JVal) × List Char)
  | 0, _ => none
  | fuel + 1, cs =>
    match skipWs cs with
    | '"' :: r1 =>
      match parseStringBody (r1.length + 1) r1 with
      | none => none
      | some (k, r2) =>
        match skipWs r2 with
        | ':' :: r3 =>
          match parseVal fuel r3 with
          | none => none
          | some (v, r4) =>
            match skipWs r4 with
            | ',' :: r5 =>
              match parseMembers fuel r5 with
              | none => none
              | some (l, r) => some ((k, v) :: l, r)
            | '\x7d' :: r5 => some ([(k, v)], r5)
            | _ => none
        | _ => none
    | _ => none

end

/-- Model of `json.loads`: parse one value and require full consumption. -/
def json_loads (s : String) : Option JVal :=
  match parseVal (s.length + 1) s.data with
  | some (v, rest) => if skipWs rest = [] then some v else none
  | none => none

/-! Embedding of `yada/add_composite_food.py`. -/

/-- One iteration of the component loop of `add_single_composite_food`:
`component.get` raises on a non-dict (`.error ()`); otherwise the part
`"{name}:{servings}"` is included only when both `name` and `servings`
are truthy. -/
def componentPart : JVal → Except Unit (Option String)
  | .jobj cfs =>
    let name := lookupD cfs "name" (.jstr "")
    let servings := lookupD cfs "servings" (.jnum 0)
    if pyTruthy name && pyTruthy servings then
      .ok (some (pyStr name ++ ":" ++ pyStr servings))
    else
      .ok none
  | _ => .error ()

/-- The whole component loop: the included parts in input order, or the
first raised exception. -/
def collectParts : List JVal → Except Unit (List String)
  | [] => .ok []
  | c :: cs =>
    match componentPart c with
    | .error e => .error e
    | .ok p =>
      match collectParts cs with
      | .error e => .error e
      | .ok rest => .ok (match p with | some s => s :: rest | none => rest)

/-- Body of `add_single_composite_food` after the string-parsing step:
`.ok (some entry)` models returning `True` after appending `entry`,
`.ok none` models returning `False`, `.error ()` models an uncaught
exception (`.get` on a non-dict, `.lower()` on a non-string name, or
iterating a non-list `components`; the unused `food_id = .get("id","")`
raises on exactly the same non-dict inputs and is otherwise dropped). -/
def add_single_parsed (food_data : JVal) : Except Unit (Option String) :=
  match food_data with
  | .jobj fs =>
    let food_name := lookupD fs "name" (.jstr "")
    let components := lookupD fs "components" (.jarr [])
    if !pyTruthy food_name || !pyTruthy components then .ok none
    else
      match food_name with
      | .jstr nm =>
        match components with
        | .jarr comps =>
          match collectParts comps with
          | .error e => .error e
          | .ok parts =>
            .ok (some (nm ++ "|" ++ joinSep "," [pyLower nm, nm] ++ "|" ++
              joinSep ";" parts ++ "\n"))
        | _ => .error ()
      | _ => .error ()
  | _ => .error ()

/-- `add_single_composite_food` up to the file append: a string argument is
parsed first (`json.loads`, decode failure returns `False`, i.e. `none`). -/
def add_single_line (food_data : JVal) : Except Unit (Option String) :=
  match food_data with
  | .jstr s =>
    match json_loads s with
    | none => .ok none
    | some v => add_single_parsed v
  | v => add_single_parsed v

/-- `add_single_composite_food(food_data, file_path)`: the file is its
content, the append always succeeds in the model. -/
def add_single_composite_food (food_data : JVal) (file : String) :
    Except Unit Bool × String :=
  match add_single_line food_data with
  | .error e => (.error e, file)
  | .ok none => (.ok false, file)
  | .ok (some entry) => (.ok true, file ++ entry)

/-- The list loop of `add_composite_food_from_json`: every element is
attempted in order, successes are counted; an uncaught exception stops
the loop and propagates (lines appended before it remain). -/
def add_composite_list : List JVal → String → Nat → Except Unit Nat × String
  | [], file, cnt => (.ok cnt, file)
  | x :: xs, file, cnt =>
    match add_single_composite_food x file with
    | (.error e, f2) => (.error e, f2)
    | (.ok b, f2) => add_composite_list xs f2 (if b then cnt + 1 else cnt)

/-- `add_composite_food_from_json(json_data, file_path)`: a list is
processed element by element and the result is `success_count == len`;
anything else goes to `add_single_composite_food`. -/
def add_composite_food_from_json (json_data : JVal) (file : String) :
    Except Unit Bool × String :=
  match json_data with
  | .jarr l =>
    match add_composite_list l file 0 with
    | (.error e, f2) => (.error e, f2)
    | (.ok k, f2) => (.ok (k == l.length), f2)
  | v => add_single_composite_food v file

/-! Embedding of `yada/convert_foods.py`. -/

/-- Element check for `",".join(...)` over a JSON array: all elements must
be strings, else `TypeError`. -/
def strList : List JVal → Option (List String)
  | [] => some []
  | .jstr s :: xs =>
    match strList xs with
    | none => none
    | some l => some (s :: l)
  | _ => none

/-- Python `",".join(v)` for the values `keywords` can hold: a list of
strings joins them, a string joins its characters, a dict joins its keys,
anything else raises `TypeError`. -/
def pyJoinComma : JVal → Except Unit String
  | .jarr xs =>
    match strList xs with
    | some l => .ok (joinSep "," l)
    | none => .error ()
  | .jstr s => .ok (joinSep "," (s.data.map Char.toString))
  | .jobj fs => .ok (joinSep "," (fs.map Prod.fst))
  | _ => .error ()

/-- Python `f"{v:.2f}"` for the modelled (integer) numbers; a bool formats
as its integer value, anything non-numeric raises. -/
def pyFormatF2 : JVal → Except Unit String
  | .jnum n => .ok (pyIntStr n ++ ".00")
  | .jbool b => .ok ((if b then "1" else "0") ++ ".00")
  | _ => .error ()

/-- `process_food_item(food, output_file)` up to the write: the produced
line, or the exception it raises (non-dict record, unjoinable keywords,
unformattable calories). -/
def process_food_item (food : JVal) : Except Unit String :=
  match food with
  | .jobj fs =>
    let identifier := lookupD fs "name" (lookupD fs "id" (.jstr "Unknown"))
    match pyJoinComma (lookupD fs "keywords" (.jarr [])) with
    | .error e => .error e
    | .ok keywords =>
      match pyFormatF2 (lookupD fs "calories_per_serving" (.jnum 0)) with
      | .error e => .error e
      | .ok calStr => .ok (pyStr identifier ++ "|" ++ keywords ++ "|" ++ calStr ++ "\n")
  | _ => .error ()

/-- The `for food in food_data` loop of `convert_json_to_basic_foods`:
there is no per-record handler, so the first exception leaves the loop
(the lines already written stay, the `with` block closes the file, and
the function's outer `except` swallows the exception). -/
def runBasicList : List JVal → String → String
  | [], file => file
  | x :: xs, file =>
    match process_food_item x with
    | .ok line => runBasicList xs (file ++ line)
    | .error _ => file

/-- `convert_json_to_basic_foods` on already-parsed JSON (the file-reading
and JSON-decoding guards of the source concern the input path and are not
needed by any claim): result is the output-file content. -/
def convert_json_to_basic_foods (food_data : JVal) (file : String) : String :=
  match food_data with
  | .jarr l => runBasicList l file
  | v =>
    match process_food_item v with
    | .ok line => file ++ line
    | .error _ => file

/-! Model of the downstream parse step named by the round-trip claim:
Python `s.split(sep)` for a one-character separator. -/

/-- Split a character list at a separator: first chunk and later chunks. -/
def splitCharsNE (sep : Char) : List Char → List Char × List (List Char)
  | [] => ([], [])
  | c :: cs =>
    let r := splitCharsNE sep cs
    if c = sep then ([], r.1 :: r.2) else (c :: r.1, r.2)

/-- Python `s.split(sep)` for a one-character separator `sep`
(`"".split(sep)` is `[""]`, as in Python). -/
def splitOnChar (sep : Char) (s : String) : List String :=
  ((splitCharsNE sep s.data).1 :: (splitCharsNE sep s.data).2).map String.mk

/-- The component parts the claims describe: for a component object whose
`name` is a string, include `name:servings` exactly when the name is
non-empty and the servings value is truthy. -/
def includedPart : JVal → Option String
  | .jobj cfs =>
    match lookupD cfs "name" (.jstr "") with
    | .jstr cn =>
      let sv := lookupD cfs "servings" (.jnum 0)
      if cn ≠ "" ∧ pyTruthy sv then some (cn ++ ":" ++ pyStr sv) else none
    | _ => none
  | _ => none

/-- Success indicator of a modelled `Except` computation. -/
def okB {α : Type} : Except Unit α → Bool
  | .ok _ => true
  | .error _ => false

/-- The line a composite record contributes, when `add_single_composite_food`
succeeds on it. -/
def emittedLine (x : JVal) : Option String :=
  match add_single_line x with
  | .ok (some e) => some e
  | _ => none

/-- Output produced by one basic-converter call on an empty file. -/
def basicEmitted (v : JVal) : String := convert_json_to_basic_foods v ""

/-- Output produced by one composite-converter call on an empty file. -/
def compositeEmitted (v : JVal) : String := (add_composite_food_from_json v "").2

/-! Helper lemmas. -/

theorem splitCharsNE_no_sep (sep : Char) (l : List Char) (h : sep ∉ l) :
    splitCharsNE sep l = (l, []) := by
  induction l with
  | nil => rfl
  | cons c cs ih =>
    have hc : c ≠ sep := fun hc => h (hc ▸ List.mem_cons_self c cs)
    have hcs : sep ∉ cs := fun hm => h (List.mem_cons_of_mem c hm)
    simp [splitCharsNE, hc, ih hcs]

theorem splitCharsNE_append (sep : Char) (xs ys : List Char) (h : sep ∉ xs) :
    splitCharsNE sep (xs ++ sep :: ys)
      = (xs, (splitCharsNE sep ys).1 :: (splitCharsNE sep ys).2) := by
  induction xs with
  | nil => simp [splitCharsNE]
  | cons c cs ih =>
    have hc : c ≠ sep := fun hc => h (hc ▸ List.mem_cons_self c cs)
    have hcs : sep ∉ cs := fun hm => h (List.mem_cons_of_mem c hm)
    simp [splitCharsNE, hc, ih hcs]

theorem splitOnChar_three (sep : Char) (sepS a b c : String) (hs : sepS.data = [sep])
    (ha : sep ∉ a.data) (hb : sep ∉ b.data) (hc : sep ∉ c.data) :
    splitOnChar sep (a ++ sepS ++ b ++ sepS ++ c) = [a, b, c] := by
  have hdata : (a ++ sepS ++ b ++ sepS ++ c).data
      = a.data ++ sep :: (b.data ++ sep :: c.data) := by
    simp [String.data_append, hs]
  unfold splitOnChar
  rw [hdata, splitCharsNE_append sep _ _ ha, splitCharsNE_append sep _ _ hb,
    splitCharsNE_no_sep sep _ hc]
  rfl

theorem splitOnChar_joinSep (sep : Char) (sepS : String) (hs : sepS.data = [sep])
    (ks : List String) (hne : ks ≠ []) (hk : ∀ k ∈ ks, sep ∉ k.data) :
    splitOnChar sep (joinSep sepS ks) = ks := by
  induction ks with
  | nil => exact absurd rfl hne
  | cons x xs ih =>
    cases xs with
    | nil =>
      have hx : sep ∉ x.data := hk x (List.mem_cons_self x [])
      unfold splitOnChar
      rw [show joinSep sepS [x] = x from rfl, splitCharsNE_no_sep sep _ hx]
      rfl
    | cons y t =>
      have hx : sep ∉ x.data := hk x (List.mem_cons_self x (y :: t))
      have hrest : ∀ k ∈ y :: t, sep ∉ k.data :=
        fun k hm => hk k (List.mem_cons_of_mem x hm)
      have hdata : (joinSep sepS (x :: y :: t)).data
          = x.data ++ sep :: (joinSep sepS (y :: t)).data := by
        rw [show joinSep sepS (x :: y :: t) = x ++ sepS ++ joinSep sepS (y :: t) from rfl]
        simp [String.data_append, hs]
      have ihr := ih (List.cons_ne_nil y t) hrest
      unfold splitOnChar at ihr ⊢
      rw [hdata, splitCharsNE_append sep _ _ hx]
      simpa using ihr

theorem mem_joinSep_data (sepS : String) (l : List String) (c : Char)
    (h : c ∈ (joinSep sepS l).data) : c ∈ sepS.data ∨ ∃ k ∈ l, c ∈ k.data := by
  induction l with
  | nil => simp [joinSep] at h
  | cons x xs ih =>
    cases xs with
    | nil =>
      right
      exact ⟨x, List.mem_cons_self x [], h⟩
    | cons y t =>
      rw [show joinSep sepS (x :: y :: t) = x ++ sepS ++ joinSep sepS (y :: t) from rfl] at h
      simp only [String.data_append, List.mem_append] at h
      rcases h with (h | h) | h
      · exact Or.inr ⟨x, List.mem_cons_self x (y :: t), h⟩
      · exact Or.inl h
      · rcases ih h with h | ⟨k, hk, hck⟩
        · exact Or.inl h
        · exact Or.inr ⟨k, List.mem_cons_of_mem x hk, hck⟩

theorem pyDigitChar_ne_dot (d : Nat) : pyDigitChar d ≠ '.' := by
  unfold pyDigitChar; split_ifs <;> decide

theorem pyDigitChar_ne_pipe (d : Nat) : pyDigitChar d ≠ '|' := by
  unfold pyDigitChar; split_ifs <;> decide

theorem natDigitsAux_chars (fuel n : Nat) (c : Char)
    (h : c ∈ natDigitsAux fuel n) : ∃ d, c = pyDigitChar d := by
  induction fuel generalizing n with
  | zero => simp [natDigitsAux] at h
  | succ fuel ih =>
    by_cases hn : n = 0
    · simp [natDigitsAux, hn] at h
    · rw [natDigitsAux, if_neg hn] at h
      rcases List.mem_append.1 h with h | h
      · exact ih (n / 10) h
      · exact ⟨n % 10, by simpa using h⟩

theorem pyIntStr_chars (n : Int) (c : Char) (h : c ∈ (pyIntStr n).data) :
    c = '-' ∨ ∃ d, c = pyDigitChar d := by
  have hnat : ∀ m : Nat, c ∈ (pyNatStr m).data → ∃ d, c = pyDigitChar d := by
    intro m hm
    unfold pyNatStr at hm
    by_cases hz : m = 0
    · rw [if_pos hz] at hm
      exact ⟨0, by simpa [pyDigitChar] using hm⟩
    · rw [if_neg hz] at hm
      exact natDigitsAux_chars m m c hm
  unfold pyIntStr at h
  by_cases hneg : n < 0
  · rw [if_pos hneg, String.data_append] at h
    rcases List.mem_append.1 h with h | h
    · exact Or.inl (by simpa using h)
    · exact Or.inr (hnat _ h)
  · rw [if_neg hneg] at h
    exact Or.inr (hnat _ h)

theorem pyIntStr_ne_dot (n : Int) (c : Char) (h : c ∈ (pyIntStr n).data) : c ≠ '.' := by
  rcases pyIntStr_chars n c h with rfl | ⟨d, rfl⟩
  · decide
  · exact pyDigitChar_ne_dot d

theorem pyIntStr_ne_pipe (n : Int) (c : Char) (h : c ∈ (pyIntStr n).data) : c ≠ '|' := by
  rcases pyIntStr_chars n c h with rfl | ⟨d, rfl⟩
  · decide
  · exact pyDigitChar_ne_pipe d

theorem componentPart_eq_includedPart (cfs : List (String × JVal)) (cn : String)
    (h : lookupD cfs "name" (.jstr "") = .jstr cn) :
    componentPart (.jobj cfs) = .ok (includedPart (.jobj cfs)) := by
  simp only [componentPart, includedPart, h]
  by_cases hc : cn = ""
  · subst hc
    simp [pyTruthy]
  · cases hsv : pyTruthy (lookupD cfs "servings" (.jnum 0)) <;>
      simp [pyTruthy, hc, hsv, pyStr]

theorem collectParts_eq_filterMap (comps : List JVal)
    (h : ∀ c ∈ comps, ∃ cfs cn, c = .jobj cfs ∧ lookupD cfs "name" (.jstr "") = .jstr cn) :
    collectParts comps = .ok (comps.filterMap includedPart) := by
  induction comps with
  | nil => rfl
  | cons c cs ih =>
    obtain ⟨cfs, cn, rfl, hcn⟩ := h c (List.mem_cons_self c cs)
    have hrest := ih fun x hx => h x (List.mem_cons_of_mem _ hx)
    rw [collectParts, componentPart_eq_includedPart cfs cn hcn, hrest]
    cases hip : includedPart (.jobj cfs) <;> simp [hip, List.filterMap_cons]

theorem add_composite_list_ok (l : List JVal) (file : String) (cnt : Nat)
    (h : ∀ x ∈ l, okB (add_single_line x) = true) :
    add_composite_list l file cnt
      = (.ok (cnt + (l.filterMap emittedLine).length),
         file ++ concatStrs (l.filterMap emittedLine)) := by
  induction l generalizing file cnt with
  | nil => simp [add_composite_list, concatStrs]
  | cons x xs ih =>
    have hx := h x (List.mem_cons_self x xs)
    have hrest : ∀ y ∈ xs, okB (add_single_line y) = true :=
      fun y hy => h y (List.mem_cons_of_mem _ hy)
    rw [add_composite_list]
    cases hline : add_single_line x with
    | error e => rw [hline] at hx; simp [okB] at hx
    | ok p =>
      cases p with
      | none =>
        have hem : emittedLine x = none := by rw [emittedLine, hline]
        rw [show add_single_composite_food x file = (.ok false, file) by
          rw [add_single_composite_food, hline]]
        change add_composite_list xs file cnt = _
        rw [ih file cnt hrest]
        simp [List.filterMap_cons, hem]
      | some e =>
        have hem : emittedLine x = some e := by rw [emittedLine, hline]
        rw [show add_single_composite_food x file = (.ok true, file ++ e) by
          rw [add_single_composite_food, hline]]
        change add_composite_list xs (file ++ e) (cnt + 1) = _
        rw [ih (file ++ e) (cnt + 1) hrest]
        have hfm : (x :: xs).filterMap emittedLine = e :: xs.filterMap emittedLine := by
          simp [List.filterMap_cons, hem]
        rw [hfm,
          show concatStrs (e :: xs.filterMap emittedLine)
            = e ++ concatStrs (xs.filterMap emittedLine) from rfl,
          String.append_assoc,
          show (e :: xs.filterMap emittedLine).length
            = (xs.filterMap emittedLine).length + 1 from rfl,
          show cnt + 1 + (xs.filterMap emittedLine).length
            = cnt + ((xs.filterMap emittedLine).length + 1) by omega]

theorem add_single_snd (x : JVal) (f : String) :
    add_single_composite_food x f
      = ((add_single_composite_food x "").1, f ++ (add_single_composite_food x "").2) := by
  cases h : add_single_line x with
  | error e => simp [add_single_composite_food, h]
  | ok p =>
    cases p with
    | none => simp [add_single_composite_food, h]
    | some e =>
      simp only [add_single_composite_food, h]
      simp

theorem add_composite_list_snd (l : List JVal) (f : String) (cnt : Nat) :
    add_composite_list l f cnt
      = ((add_composite_list l "" cnt).1, f ++ (add_composite_list l "" cnt).2) := by
  induction l generalizing f cnt with
  | nil => simp [add_composite_list]
  | cons x xs ih =>
    cases h1 : add_single_composite_food x "" with
    | mk r1 e1 =>
      have hxf : add_single_composite_food x f = (r1, f ++ e1) := by
        rw [add_single_snd x f, h1]
      rw [add_composite_list, add_composite_list, hxf, h1]
      cases r1 with
      | error e => rfl
      | ok b =>
        change add_composite_list xs (f ++ e1) (if b then cnt + 1 else cnt)
          = ((add_composite_list xs e1 (if b then cnt + 1 else cnt)).1,
             f ++ (add_composite_list xs e1 (if b then cnt + 1 else cnt)).2)
        rw [ih (f ++ e1) (if b then cnt + 1 else cnt), ih e1 (if b then cnt + 1 else cnt)]
        simp [String.append_assoc]

theorem add_composite_snd (w : JVal) (f : String) :
    add_composite_food_from_json w f
      = ((add_composite_food_from_json w "").1, f ++ compositeEmitted w) := by
  cases w with
  | jarr l =>
    simp only [add_composite_food_from_json, compositeEmitted]
    rw [add_composite_list_snd l f 0]
    cases hr : add_composite_list l "" 0 with
    | mk r1 f2 =>
      cases r1 <;> rfl
  | jnull =>
    simp only [add_composite_food_from_json, compositeEmitted]
    exact add_single_snd _ f
  | jbool b =>
    simp only [add_composite_food_from_json, compositeEmitted]
    exact add_single_snd _ f
  | jnum n =>
    simp only [add_composite_food_from_json, compositeEmitted]
    exact add_single_snd _ f
  | jstr s =>
    simp only [add_composite_food_from_json, compositeEmitted]
    exact add_single_snd _ f
  | jobj fs =>
    simp only [add_composite_food_from_json, compositeEmitted]
    exact add_single_snd _ f

theorem runBasicList_snd (l : List JVal) (f : String) :
    runBasicList l f = f ++ runBasicList l "" := by
  induction l generalizing f with
  | nil => simp [runBasicList]
  | cons x xs ih =>
    cases h : process_food_item x with
    | error e => simp [runBasicList, h]
    | ok line =>
      simp only [runBasicList, h]
      rw [ih (f ++ line), ih ("" ++ line)]
      simp [String.append_assoc]

theorem convert_snd (v : JVal) (f : String) :
    convert_json_to_basic_foods v f = f ++ basicEmitted v := by
  cases v with
  | jarr l => exact runBasicList_snd l f
  | jnull => simp [convert_json_to_basic_foods, basicEmitted, process_food_item]
  | jbool b => simp [convert_json_to_basic_foods, basicEmitted, process_food_item]
  | jnum n => simp [convert_json_to_basic_foods, basicEmitted, process_food_item]
  | jstr s => simp [convert_json_to_basic_foods, basicEmitted, process_food_item]
  | jobj fs =>
    simp only [convert_json_to_basic_foods, basicEmitted]
    cases h : process_food_item (.jobj fs) <;> simp [h]

theorem strList_map (ks : List String) : strList (ks.map .jstr) = some ks := by
  induction ks with
  | nil => rfl
  | cons k t ih => simp [strList, ih]

/-- C10: `add_composite_food_from_json` on the empty list returns true and
appends no lines to the output file (0 of 0 records succeed). -/
theorem C10_empty_list_vacuous_success (file : String) :
    add_composite_food_from_json (.jarr []) file = (.ok true, file) := by rfl

/-- C3: a composite record whose name is absent or empty, or whose
components field is absent or empty, makes `add_single_composite_food`
return false and leaves the output file unchanged. -/
theorem C3_missing_name_or_components_rejected (fs : List (String × JVal)) (file : String)
    (h : lookupD fs "name" (.jstr "") = .jstr ""
       ∨ lookupD fs "components" (.jarr []) = .jarr []) :
    add_single_composite_food (.jobj fs) file = (.ok false, file) := by
  have hparsed : add_single_parsed (.jobj fs) = .ok none := by
    rcases h with h | h
    · simp [add_single_parsed, h, pyTruthy]
    · simp [add_single_parsed, h, pyTruthy]
  rw [add_single_composite_food,
    show add_single_line (.jobj fs) = add_single_parsed (.jobj fs) from rfl, hparsed]

theorem C3_witness :
    (lookupD [] "name" (.jstr "") = .jstr ""
       ∨ lookupD [] "components" (.jarr []) = .jarr []) ∧
    add_single_composite_food (.jobj []) "" = (.ok false, "") :=
  ⟨Or.inl rfl, C3_missing_name_or_components_rejected [] "" (Or.inl rfl)⟩

/-- C7 counterexample: a string holding a JSON array is not parsed before
dispatch; `add_composite_food_from_json` on the string raises (models the
`AttributeError` of calling `.get` on a list), while the same call on the
parsed value succeeds and appends the record's line. -/
theorem C7_counterexample :
    json_loads "[\x7b\"name\": \"A\", \"components\": [\x7b\"name\": \"B\", \"servings\": 1\x7d]\x7d]"
      = some (.jarr [.jobj [("name", .jstr "A"),
          ("components", .jarr [.jobj [("name", .jstr "B"), ("servings", .jnum 1)]])]]) ∧
    add_composite_food_from_json
      (.jstr "[\x7b\"name\": \"A\", \"components\": [\x7b\"name\": \"B\", \"servings\": 1\x7d]\x7d]") ""
      = (.error (), "") ∧
    add_composite_food_from_json
      (.jarr [.jobj [("name", .jstr "A"),
        ("components", .jarr [.jobj [("name", .jstr "B"), ("servings", .jnum 1)]])]]) ""
      = (.ok true, "A|a,A|B:1\n") :=
  ⟨by rfl, by rfl, by rfl⟩

/-- C7 (amended): the string is parsed inside `add_single_composite_food`,
after dispatch.  A string parsing to a non-list, non-string value yields
the same result as the call on that parsed value; a string parsing to a
list (or to a string) raises instead of being processed element by
element; and a string that fails to parse returns false without raising. -/
theorem C7_amended_string_dispatch (s : String) (file : String) :
    add_composite_food_from_json (.jstr s) file =
      match json_loads s with
      | none => (.ok false, file)
      | some (.jarr _) => (.error (), file)
      | some (.jstr _) => (.error (), file)
      | some v => add_single_composite_food v file := by
  rw [show add_composite_food_from_json (.jstr s) file
      = add_single_composite_food (.jstr s) file from rfl,
    add_single_composite_food,
    show add_single_line (.jstr s)
      = match json_loads s with
        | none => .ok none
        | some v => add_single_parsed v from rfl]
  cases hls : json_loads s with
  | none => rfl
  | some v => cases v <;> rfl

theorem add_single_parsed_valid (fs : List (String × JVal)) (nm : String)
    (comps : List JVal)
    (hname : lookupD fs "name" (.jstr "") = .jstr nm)
    (hnm : nm ≠ "")
    (hcomps : lookupD fs "components" (.jarr []) = .jarr comps)
    (hne : comps ≠ []) :
    add_single_parsed (.jobj fs)
      = match collectParts comps with
        | .error e => .error e
        | .ok parts =>
          .ok (some (nm ++ "|" ++ joinSep "," [pyLower nm, nm] ++ "|" ++
            joinSep ";" parts ++ "\n")) := by
  have hcond : (!pyTruthy (.jstr nm) || !pyTruthy (.jarr comps)) = false := by
    simp [pyTruthy, hnm, hne]
  simp only [add_single_parsed, hname, hcomps, hcond, Bool.false_eq_true, if_false]

/-- C1: a composite record with a non-empty name and a non-empty components
list makes `add_single_composite_food` return true and append exactly the
line `name|lowercase(name),name|c1:s1;...;ck:sk\n`, where the parts are
exactly the components with a non-empty name and truthy servings, in input
order, joined with `;`. -/
theorem C1_single_composite_line (fs : List (String × JVal)) (nm : String)
    (comps : List JVal) (file : String)
    (hname : lookupD fs "name" (.jstr "") = .jstr nm)
    (hnm : nm ≠ "")
    (hcomps : lookupD fs "components" (.jarr []) = .jarr comps)
    (hne : comps ≠ [])
    (hcs : ∀ c ∈ comps, ∃ cfs cn, c = .jobj cfs ∧ lookupD cfs "name" (.jstr "") = .jstr cn) :
    add_single_composite_food (.jobj fs) file
      = (.ok true,
         file ++ (nm ++ "|" ++ (pyLower nm ++ "," ++ nm) ++ "|" ++
           joinSep ";" (comps.filterMap includedPart) ++ "\n")) := by
  have hparsed := add_single_parsed_valid fs nm comps hname hnm hcomps hne
  rw [collectParts_eq_filterMap comps hcs] at hparsed
  rw [add_single_composite_food,
    show add_single_line (.jobj fs) = add_single_parsed (.jobj fs) from rfl, hparsed]
  rfl

theorem C1_witness :
    add_single_composite_food
      (.jobj [("name", .jstr "Ghee Roti"),
              ("components", .jarr [.jobj [("name", .jstr "Roti"), ("servings", .jnum 1)],
                                    .jobj [("name", .jstr "Ghee"), ("servings", .jnum 1)]])]) ""
      = (.ok true, "Ghee Roti|ghee roti,Ghee Roti|Roti:1;Ghee:1\n") := by
  refine Eq.trans (C1_single_composite_line _ "Ghee Roti"
    [.jobj [("name", .jstr "Roti"), ("servings", .jnum 1)],
     .jobj [("name", .jstr "Ghee"), ("servings", .jnum 1)]]
    "" rfl (by decide) rfl (by exact List.cons_ne_nil _ _) ?_) (by rfl)
  intro c hc
  simp only [List.mem_cons, List.not_mem_nil, or_false] at hc
  rcases hc with rfl | rfl
  · exact ⟨_, "Roti", rfl, rfl⟩
  · exact ⟨_, "Ghee", rfl, rfl⟩

theorem collectParts_all_none (comps : List JVal)
    (h : ∀ c ∈ comps, ∃ cfs, c = .jobj cfs ∧
      ¬(pyTruthy (lookupD cfs "name" (.jstr "")) = true ∧
        pyTruthy (lookupD cfs "servings" (.jnum 0)) = true)) :
    collectParts comps = .ok [] := by
  induction comps with
  | nil => rfl
  | cons c cs ih =>
    obtain ⟨cfs, rfl, hcond⟩ := h c (List.mem_cons_self c cs)
    have hcp : componentPart (.jobj cfs) = .ok none := by
      have hb : (pyTruthy (lookupD cfs "name" (.jstr ""))
          && pyTruthy (lookupD cfs "servings" (.jnum 0))) = false := by
        cases h1 : pyTruthy (lookupD cfs "name" (.jstr "")) <;>
          cases h2 : pyTruthy (lookupD cfs "servings" (.jnum 0)) <;>
            simp_all
      simp only [componentPart, hb, Bool.false_eq_true, if_false]
    rw [collectParts, hcp, ih fun x hx => h x (List.mem_cons_of_mem _ hx)]

/-- C9: a composite record with a non-empty name and a non-empty components
list in which every component is filtered out (empty name or falsy
servings) still succeeds, appending a line whose third field is empty;
the non-emptiness validation is not re-applied after filtering. -/
theorem C9_all_components_filtered (fs : List (String × JVal)) (nm : String)
    (comps : List JVal) (file : String)
    (hname : lookupD fs "name" (.jstr "") = .jstr nm)
    (hnm : nm ≠ "")
    (hcomps : lookupD fs "components" (.jarr []) = .jarr comps)
    (hne : comps ≠ [])
    (hcs : ∀ c ∈ comps, ∃ cfs, c = .jobj cfs ∧
      ¬(pyTruthy (lookupD cfs "name" (.jstr "")) = true ∧
        pyTruthy (lookupD cfs "servings" (.jnum 0)) = true)) :
    add_single_composite_food (.jobj fs) file
      = (.ok true, file ++ (nm ++ "|" ++ (pyLower nm ++ "," ++ nm) ++ "|" ++ "\n")) := by
  have hparsed := add_single_parsed_valid fs nm comps hname hnm hcomps hne
  rw [collectParts_all_none comps hcs] at hparsed
  have hparsed2 : add_single_parsed (.jobj fs)
      = .ok (some (nm ++ "|" ++ (pyLower nm ++ "," ++ nm) ++ "|" ++ "\n")) := by
    rw [hparsed]
    show Except.ok (some (nm ++ "|" ++ (pyLower nm ++ "," ++ nm) ++ "|" ++ "" ++ "\n")) = _
    simp
  rw [add_single_composite_food,
    show add_single_line (.jobj fs) = add_single_parsed (.jobj fs) from rfl, hparsed2]

theorem C9_witness :
    add_single_composite_food
      (.jobj [("name", .jstr "Tea"),
              ("components", .jarr [.jobj [("name", .jstr "Water"), ("servings", .jnum 0)]])]) ""
      = (.ok true, "Tea|tea,Tea|\n") := by
  refine Eq.trans (C9_all_components_filtered _ "Tea"
    [.jobj [("name", .jstr "Water"), ("servings", .jnum 0)]]
    "" rfl (by decide) rfl (by exact List.cons_ne_nil _ _) ?_) (by rfl)
  intro c hc
  simp only [List.mem_cons, List.not_mem_nil, or_false] at hc
  subst hc
  refine ⟨_, rfl, ?_⟩
  intro hcontra
  simp [pyTruthy, lookupD] at hcontra

/-- C2: on a list of N composite records none of which raises, every
element is attempted, exactly the K lines of the succeeding records are
appended in order, and the overall result is true iff K = N. -/
theorem C2_list_all_attempted (l : List JVal) (file : String)
    (h : ∀ x ∈ l, okB (add_single_line x) = true) :
    add_composite_food_from_json (.jarr l) file
      = (.ok ((l.filterMap emittedLine).length == l.length),
         file ++ concatStrs (l.filterMap emittedLine)) := by
  rw [show add_composite_food_from_json (.jarr l) file
      = match add_composite_list l file 0 with
        | (.error e, f2) => (.error e, f2)
        | (.ok k, f2) => (.ok (k == l.length), f2) from rfl,
    add_composite_list_ok l file 0 h]
  rw [Nat.zero_add]

theorem C2_witness :
    (∀ x ∈ [JVal.jobj [("name", .jstr "B"),
        ("components", .jarr [.jobj [("name", .jstr "C"), ("servings", .jnum 1)]])],
      JVal.jobj []], okB (add_single_line x) = true) ∧
    add_composite_food_from_json
      (.jarr [.jobj [("name", .jstr "B"),
        ("components", .jarr [.jobj [("name", .jstr "C"), ("servings", .jnum 1)]])],
        .jobj []]) ""
      = (.ok false, "B|b,B|C:1\n") := by
  constructor
  · intro x hx
    fin_cases hx <;> rfl
  · refine Eq.trans (C2_list_all_attempted _ "" ?_) (by rfl)
    intro x hx
    fin_cases hx <;> rfl

/-- C4: for a basic-food record, the third field of the emitted line is
`calories_per_serving` (default 0 covered by the hypothesis on the
defaulted lookup) formatted with exactly two decimal digits: the field is
the integer part followed by `.00`, and the integer part contains no
decimal point. -/
theorem C4_calories_two_decimals (fs : List (String × JVal)) (n : Int) (kw : String)
    (hkw : pyJoinComma (lookupD fs "keywords" (.jarr [])) = .ok kw)
    (hcal : lookupD fs "calories_per_serving" (.jnum 0) = .jnum n) :
    process_food_item (.jobj fs)
      = .ok (pyStr (lookupD fs "name" (lookupD fs "id" (.jstr "Unknown"))) ++ "|" ++ kw ++ "|"
          ++ (pyIntStr n ++ ".00") ++ "\n")
    ∧ ∀ c ∈ (pyIntStr n).data, c ≠ '.' := by
  constructor
  · rw [process_food_item, hkw, hcal,
      show pyFormatF2 (.jnum n) = .ok (pyIntStr n ++ ".00") from rfl]
  · exact fun c hc => pyIntStr_ne_dot n c hc

theorem C4_witness :
    process_food_item (.jobj [("name", .jstr "Milk"), ("calories_per_serving", .jnum 70)])
      = .ok "Milk||70.00\n" :=
  Eq.trans
    (C4_calories_two_decimals [("name", .jstr "Milk"), ("calories_per_serving", .jnum 70)]
      70 "" rfl rfl).1 (by rfl)

/-- C5 counterexample: in the basic-food converter a record whose
processing raises aborts the rest of the batch, so a good record after the
bad one does not get its line written; the claim that every later record
is still written fails on this input. -/
theorem C5_counterexample :
    convert_json_to_basic_foods
      (.jarr [.jobj [("name", .jstr "A"), ("calories_per_serving", .jnum 70)],
              .jobj [("name", .jstr "Bad"), ("calories_per_serving", .jstr "x")],
              .jobj [("name", .jstr "B"), ("calories_per_serving", .jnum 10)]]) ""
      = "A||70.00\n" ∧
    process_food_item (.jobj [("name", .jstr "B"), ("calories_per_serving", .jnum 10)])
      = .ok "B||10.00\n" ∧
    "A||70.00\n" ≠ "A||70.00\n" ++ "B||10.00\n" :=
  ⟨by rfl, by rfl, by decide⟩

/-- C5 (amended): a raising record aborts the batch: the records before it
are written, the bad record and everything after it are not, and the
exception is swallowed by the function's outer handler (the model returns
the file content instead of propagating). -/
theorem C5_amended_abort_on_bad_record (pre : List JVal) (bad : JVal) (post : List JVal)
    (file : String)
    (hpre : ∀ x ∈ pre, okB (process_food_item x) = true)
    (hbad : process_food_item bad = .error ()) :
    convert_json_to_basic_foods (.jarr (pre ++ bad :: post)) file
      = file ++ concatStrs (pre.filterMap fun x => (process_food_item x).toOption) := by
  revert hpre
  induction pre generalizing file with
  | nil =>
    intro _
    rw [show convert_json_to_basic_foods (.jarr ([] ++ bad :: post)) file
        = runBasicList (bad :: post) file from rfl,
      runBasicList, hbad]
    simp [concatStrs]
  | cons x xs ih =>
    intro hpre
    have hx := hpre x (List.mem_cons_self x xs)
    cases hpx : process_food_item x with
    | error e => rw [hpx] at hx; simp [okB] at hx
    | ok line =>
      rw [show convert_json_to_basic_foods (.jarr ((x :: xs) ++ bad :: post)) file
          = runBasicList ((x :: xs) ++ bad :: post) file from rfl,
        List.cons_append, runBasicList, hpx]
      change runBasicList (xs ++ bad :: post) (file ++ line) = _
      rw [show runBasicList (xs ++ bad :: post) (file ++ line)
          = convert_json_to_basic_foods (.jarr (xs ++ bad :: post)) (file ++ line) from rfl,
        ih (file ++ line) fun y hy => hpre y (List.mem_cons_of_mem _ hy)]
      have hfm : (x :: xs).filterMap (fun x => (process_food_item x).toOption)
          = line :: xs.filterMap fun x => (process_food_item x).toOption := by
        simp [List.filterMap_cons, hpx, Except.toOption]
      rw [hfm,
        show concatStrs (line :: xs.filterMap fun x => (process_food_item x).toOption)
          = line ++ concatStrs (xs.filterMap fun x => (process_food_item x).toOption) from rfl,
        String.append_assoc]

theorem C5_amended_witness :
    (∀ x ∈ [JVal.jobj [("name", .jstr "A"), ("calories_per_serving", .jnum 70)]],
      okB (process_food_item x) = true) ∧
    convert_json_to_basic_foods
      (.jarr [.jobj [("name", .jstr "A"), ("calories_per_serving", .jnum 70)],
              .jobj [("name", .jstr "Bad"), ("calories_per_serving", .jstr "x")],
              .jobj [("name", .jstr "B"), ("calories_per_serving", .jnum 10)]]) ""
      = "A||70.00\n" := by
  constructor
  · intro x hx
    fin_cases hx <;> rfl
  · refine Eq.trans (C5_amended_abort_on_bad_record
      [.jobj [("name", .jstr "A"), ("calories_per_serving", .jnum 70)]]
      (.jobj [("name", .jstr "Bad"), ("calories_per_serving", .jstr "x")])
      [.jobj [("name", .jstr "B"), ("calories_per_serving", .jnum 10)]]
      "" ?_ (by rfl)) (by rfl)
    intro x hx
    fin_cases hx <;> rfl

/-- C6 counterexample: for an empty keyword list the emitted line is
`A||70.00\n`, and splitting the second field on `,` yields `[""]`, not the
original empty list, so the round-trip claim fails in the empty case. -/
theorem C6_counterexample :
    process_food_item
      (.jobj [("name", .jstr "A"), ("keywords", .jarr []),
              ("calories_per_serving", .jnum 70)])
      = .ok "A||70.00\n" ∧
    splitOnChar '|' "A||70.00" = ["A", "", "70.00"] ∧
    splitOnChar ',' "" = [""] ∧
    ([""] : List String) ≠ [] :=
  ⟨by rfl, by rfl, by rfl, by decide⟩

/-- C6 (amended): for a basic-food record whose identifier and keywords
contain no `|` and whose keywords contain no `,`, splitting the emitted
line without its newline on `|` gives the three fields with the original
identifier first, and splitting the second field on `,` reconstructs the
keyword list whenever it is non-empty (an empty list reads back as
`[""]`). -/
theorem C6_amended_roundtrip (fs : List (String × JVal)) (idStr : String)
    (ks : List String) (n : Int)
    (hid : lookupD fs "name" (lookupD fs "id" (.jstr "Unknown")) = .jstr idStr)
    (hkw : lookupD fs "keywords" (.jarr []) = .jarr (ks.map .jstr))
    (hcal : lookupD fs "calories_per_serving" (.jnum 0) = .jnum n)
    (hidp : '|' ∉ idStr.data)
    (hks : ∀ k ∈ ks, '|' ∉ k.data ∧ ',' ∉ k.data)
    (hne : ks ≠ []) :
    process_food_item (.jobj fs)
      = .ok ((idStr ++ "|" ++ joinSep "," ks ++ "|" ++ (pyIntStr n ++ ".00")) ++ "\n")
    ∧ splitOnChar '|' (idStr ++ "|" ++ joinSep "," ks ++ "|" ++ (pyIntStr n ++ ".00"))
        = [idStr, joinSep "," ks, pyIntStr n ++ ".00"]
    ∧ splitOnChar ',' (joinSep "," ks) = ks := by
  have hjp : '|' ∉ (joinSep "," ks).data := by
    intro hmem
    rcases mem_joinSep_data "," ks '|' hmem with h | ⟨k, hk, hck⟩
    · simp at h
    · exact (hks k hk).1 hck
  have hcp : '|' ∉ (pyIntStr n ++ ".00").data := by
    intro hmem
    rw [String.data_append] at hmem
    rcases List.mem_append.1 hmem with h | h
    · exact pyIntStr_ne_pipe n '|' h rfl
    · simp at h
  refine ⟨?_, ?_, ?_⟩
  · rw [process_food_item, hkw, hcal,
      show pyJoinComma (.jarr (ks.map .jstr))
        = match strList (ks.map .jstr) with
          | some l => .ok (joinSep "," l)
          | none => .error () from rfl,
      strList_map ks, hid,
      show pyFormatF2 (.jnum n) = .ok (pyIntStr n ++ ".00") from rfl]
    rfl
  · exact splitOnChar_three '|' "|" idStr (joinSep "," ks) (pyIntStr n ++ ".00") rfl
      hidp hjp hcp
  · exact splitOnChar_joinSep ',' "," rfl ks hne fun k hk => (hks k hk).2

theorem C6_amended_witness :
    process_food_item
      (.jobj [("name", .jstr "Bread"), ("keywords", .jarr [.jstr "bread", .jstr "loaf"]),
              ("calories_per_serving", .jnum 70)])
      = .ok "Bread|bread,loaf|70.00\n"
    ∧ splitOnChar '|' "Bread|bread,loaf|70.00" = ["Bread", "bread,loaf", "70.00"]
    ∧ splitOnChar ',' "bread,loaf" = ["bread", "loaf"] := by
  have h := C6_amended_roundtrip
    [("name", .jstr "Bread"), ("keywords", .jarr [.jstr "bread", .jstr "loaf"]),
     ("calories_per_serving", .jnum 70)]
    "Bread" ["bread", "loaf"] 70 rfl rfl rfl (by decide) (by decide)
    (by exact List.cons_ne_nil _ _)
  exact h

/-- C8: neither converter is idempotent: running a converter twice with the
same input appends its emitted lines a second time, leaving the previous
output as an unchanged prefix (append-only, no deduplication). -/
theorem C8_append_only_no_dedup (v w : JVal) (f : String)
    (hb : basicEmitted v ≠ "") (hc : compositeEmitted w ≠ "") :
    convert_json_to_basic_foods v (convert_json_to_basic_foods v f)
        = f ++ basicEmitted v ++ basicEmitted v
    ∧ (add_composite_food_from_json w (add_composite_food_from_json w f).2).2
        = f ++ compositeEmitted w ++ compositeEmitted w := by
  constructor
  · rw [convert_snd v f, convert_snd v (f ++ basicEmitted v)]
  · rw [add_composite_snd w f]
    show (add_composite_food_from_json w (f ++ compositeEmitted w)).2 = _
    rw [add_composite_snd w (f ++ compositeEmitted w)]

theorem C8_witness :
    basicEmitted (.jobj [("name", .jstr "A")]) ≠ "" ∧
    compositeEmitted
      (.jobj [("name", .jstr "B"),
        ("components", .jarr [.jobj [("name", .jstr "C"), ("servings", .jnum 1)]])]) ≠ "" ∧
    convert_json_to_basic_foods (.jobj [("name", .jstr "A")])
        (convert_json_to_basic_foods (.jobj [("name", .jstr "A")]) "")
      = "A||0.00\nA||0.00\n" ∧
    (add_composite_food_from_json
      (.jobj [("name", .jstr "B"),
        ("components", .jarr [.jobj [("name", .jstr "C"), ("servings", .jnum 1)]])])
      (add_composite_food_from_json
        (.jobj [("name", .jstr "B"),
          ("components", .jarr [.jobj [("name", .jstr "C"), ("servings", .jnum 1)]])]) "").2).2
      = "B|b,B|C:1\nB|b,B|C:1\n" := by
  have h := C8_append_only_no_dedup (.jobj [("name", .jstr "A")])
    (.jobj [("name", .jstr "B"),
      ("components", .jarr [.jobj [("name", .jstr "C"), ("servings", .jnum 1)]])])
    "" (by decide) (by decide)
  exact ⟨by decide, by decide, Eq.trans h.1 (by rfl), Eq.trans h.2 (by rfl)⟩
